import Mathlib

/-!
Verification development for the Customer-Experience-Analytics-for-Fintech-Apps
pipeline.  The repository is a sequential batch pipeline (scripts under
`scripts/`): sentiment classification (`sentiment_analysis.py`), thematic
clustering of negative reviews (`thematic_analysis.py`), and relational
persistence (`load_to_postgres.py`).  This file shallowly embeds the data
model and the operations of those scripts and proves / refutes the stated
properties about them.

Conventions of the embedding:
* a pandas `DataFrame` of review rows becomes a `List` of records; an
  optional column (one that may be absent or NaN) becomes an `Option` field;
* machine floats carrying sentiment scores become `ℚ`; floats carrying
  term weights in the clustering core become the exact fraction type `W`
  defined below, whose operations evaluate inside proofs;
* a Python function that may raise becomes a function into `Except`/`Option`;
  the pipeline's catch-all `except` blocks (which log and return without
  writing an output file) are modelled by propagating an error value, and a
  successfully written output file by an `.ok`/`some` result.
-/

namespace FintechCX

set_option maxRecDepth 1000000

/-- A review row as it leaves the sentiment stage and enters
`thematic_analysis.py` (columns `bank`, `review`, `sentiment_label`, and —
after the thematic stage only — `theme_id`).  `theme_id = none` models an
absent column / NaN entry. -/
structure SentimentRow where
  bank : String
  review : String
  sentiment_label : String
  theme_id : Option Int := none
deriving DecidableEq, Repr, Inhabited

/-- Indices (pandas index positions) of the rows selected by
`df[df['sentiment_label'] == 'NEGATIVE']` in `perform_thematic_analysis`
(line 54 of `thematic_analysis.py`). -/
def negativeIndices (df : List SentimentRow) : List Nat :=
  (List.range df.length).filter
    (fun i => (df.getD i default).sentiment_label == "NEGATIVE")

/-- Forget the `theme_id` column of a row; used to state that the merge-back
step changes nothing except `theme_id`. -/
def dropTheme (r : SentimentRow) : SentimentRow :=
  { r with theme_id := none }

/-- Merge-back step of `perform_thematic_analysis` (lines 89–97 of
`thematic_analysis.py`): `df['theme_id'] = None`, then
`df.update(df_negative['theme_id'])` writes the cluster label onto exactly
the rows whose index carries an assignment, then
`df['theme_id'].fillna(-1).astype(int)` turns every remaining hole into the
sentinel `-1`. -/
def mergeBack (df : List SentimentRow) (a : Nat → Option Int) : List SentimentRow :=
  (List.range df.length).map
    (fun i => { df.getD i default with theme_id := some ((a i).getD (-1)) })

/-- A row of `thematic_analysis_results.csv` as read by
`load_to_postgres.py` (`rating` and `theme_id` may be NaN, modelled by
`none`; `date` is carried through; `sentiment_score` is a numeric score). -/
structure CsvRow where
  bank : String
  rating : Option Int
  date : String
  source : String
  review_text : String
  sentiment_label : String
  sentiment_score : ℚ
  theme_id : Option Int
deriving DecidableEq, Repr, Inhabited

/-- A tuple as inserted into the `fintech_reviews` table.  The table schema
(`create_table_if_not_exists`, lines 66–78 of `load_to_postgres.py`) has no
data-quality flag column of any kind: exactly these fields are persisted. -/
structure DbRow where
  bank : String
  rating : Int
  review_date : String
  source : String
  review_text : String
  sentiment_label : String
  sentiment_score : ℚ
  theme_id : Int
deriving DecidableEq, Repr, Inhabited

/-- Coercion applied per row by `load_data_to_postgres` (lines 110–113 of
`load_to_postgres.py`): `df['rating'].fillna(0).astype(int)` and
`df['theme_id'].fillna(-1).astype(int)`, then the tuple of schema columns is
built.  No flag recording that a value was missing is produced. -/
def coerceRow (r : CsvRow) : DbRow :=
  { bank := r.bank
    rating := r.rating.getD 0
    review_date := r.date
    source := r.source
    review_text := r.review_text
    sentiment_label := r.sentiment_label
    sentiment_score := r.sentiment_score
    theme_id := r.theme_id.getD (-1) }

/-- The batch of tuples handed to `extras.execute_values` (lines 122–141 of
`load_to_postgres.py`): one coerced tuple per CSV row, in order. -/
def load_data_to_postgres (rows : List CsvRow) : List DbRow :=
  rows.map coerceRow

/-- One record returned by the Hugging Face sentiment pipeline in
`sentiment_analysis.py`.  The comprehensions `[r['label'] for r in results]`
and `[r['score'] for r in results]` raise `KeyError` when a key is absent;
absence is modelled by `none`. -/
structure HFResult where
  label : Option String
  score : Option ℚ
deriving DecidableEq, Repr, Inhabited

/-- The DataFrame flowing through `analyze_sentiment`: base rows (the
`review` column's values) plus the two optional result columns, each either
absent (`none`) or a full column of values. -/
structure SentFrame where
  reviews : List String
  hasReviewCol : Bool
  sentiment_label : Option (List String)
  sentiment_score : Option (List ℚ)
deriving DecidableEq, Repr, Inhabited

/-- Extraction `[r['label'] for r in results]`: fails (raises, modelled by
`none`) as soon as one record lacks the key. -/
def extractLabels (rs : List HFResult) : Option (List String) :=
  rs.mapM (fun r => r.label)

/-- Extraction `[r['score'] for r in results]`. -/
def extractScores (rs : List HFResult) : Option (List ℚ) :=
  rs.mapM (fun r => r.score)

/-- Results-integration block of `analyze_sentiment` (lines 59–65 of
`sentiment_analysis.py`), translated statement by statement.  The Python
`try` body mutates `df` in place: the `sentiment_label` column assignment
happens before the score comprehension runs, so an exception raised while
extracting scores is caught with the label column already attached, and the
`except` branch returns the frame in that mutated state.  A pandas column
assignment with a wrong-length list raises before mutating, modelled by the
length guards. -/
def integrateResults (df : SentFrame) (rs : List HFResult) : SentFrame :=
  match extractLabels rs with
  | none => df
  | some ls =>
    if ls.length ≠ df.reviews.length then df
    else
      let df1 := { df with sentiment_label := some ls }
      match extractScores rs with
      | none => df1
      | some ss =>
        if ss.length ≠ df1.reviews.length then df1
        else { df1 with sentiment_score := some ss }

/-- `analyze_sentiment` (lines 17–78 of `sentiment_analysis.py`).  The
external model is abstracted by two parameters: `loadOk` (did
`pipeline(...)` construction succeed) and `infer` (the batch call
`sentiment_pipeline(df['review'].tolist())`, either raising or returning one
record per input).  Every `except` branch returns the frame as it stands. -/
def analyze_sentiment (loadOk : Bool) (infer : Except Unit (List HFResult))
    (df : SentFrame) : SentFrame :=
  if df.reviews.isEmpty then df
  else if !df.hasReviewCol then df
  else if !loadOk then df
  else
    match infer with
    | .error _ => df
    | .ok rs => integrateResults df rs

/-- Save guard of the `__main__` block (lines 93–100 of
`sentiment_analysis.py`): the results file is written iff
`'sentiment_label' in df_results.columns and not df_results.empty`; `some`
models a written file, `none` a refusal. -/
def saveSentimentResults (df : SentFrame) : Option SentFrame :=
  if df.sentiment_label.isSome ∧ ¬ df.reviews.isEmpty then some df else none

/-- Error taxonomy of the clustering core.  `thematic_analysis.py` wraps the
whole stage in `try/except` (lines 114–115); an error value here models the
stage logging and returning without writing `thematic_analysis_results.csv`. -/
inductive PipelineError where
  | emptyVocabulary
  | insufficientData
deriving DecidableEq, Repr

/-- Modelled from the spec: the numeric weight domain of the external
vectorizer and clusterer.  The library computes with machine floats; the
embedding computes with exact rationals represented as an integer numerator
over a positive integer denominator.  Fractions are not reduced (the
canonical `ℚ` of the library has its field operations marked irreducible,
so it cannot be evaluated inside proofs); all comparisons cross-multiply,
which is exact because denominators are positive. -/
structure W where
  num : Int
  den : Int
  den_pos : 0 < den

instance : Inhabited W := ⟨⟨0, 1, by omega⟩⟩

/-- The weight `n / 1`. -/
def wOfNat (n : Nat) : W := ⟨n, 1, by omega⟩

/-- Exact product of two weights. -/
def wMul (a b : W) : W :=
  ⟨a.num * b.num, a.den * b.den, mul_pos a.den_pos b.den_pos⟩

/-- Exact sum of two weights. -/
def wAdd (a b : W) : W :=
  ⟨a.num * b.den + b.num * a.den, a.den * b.den, mul_pos a.den_pos b.den_pos⟩

/-- Exact difference of two weights. -/
def wSub (a b : W) : W :=
  ⟨a.num * b.den - b.num * a.den, a.den * b.den, mul_pos a.den_pos b.den_pos⟩

/-- Exact division of a weight by a positive natural number. -/
def wDivNat (a : W) (n : Nat) (h : 0 < n) : W :=
  ⟨a.num, a.den * n, mul_pos a.den_pos (by exact_mod_cast h)⟩

/-- Order on weights, by cross-multiplication. -/
def wLe (a b : W) : Prop := a.num * b.den ≤ b.num * a.den

/-- Strict order on weights. -/
def wLt (a b : W) : Prop := a.num * b.den < b.num * a.den

/-- Semantic equality of weights (equality of the rationals represented). -/
def wEquiv (a b : W) : Prop := a.num * b.den = b.num * a.den

instance : DecidableRel wLe := fun a b => by unfold wLe; infer_instance

instance : DecidableRel wLt := fun a b => by unfold wLt; infer_instance

instance : DecidableRel wEquiv := fun a b => by unfold wEquiv; infer_instance

/-- Lesser of two weights. -/
def wMin (a b : W) : W := if wLe a b then a else b

/-- Sum of a list of weights. -/
def wSum (l : List W) : W := l.foldl wAdd (wOfNat 0)

/-- Split a character stream into maximal space-free chunks; `acc` holds
the characters of the current chunk in reverse. -/
def splitWordsAux : List Char → List Char → List String
  | [], acc => if acc.isEmpty then [] else [String.mk acc.reverse]
  | c :: cs, acc =>
    if c = ' ' then
      if acc.isEmpty then splitWordsAux cs []
      else String.mk acc.reverse :: splitWordsAux cs []
    else splitWordsAux cs (c :: acc)

/-- Modelled from the spec: the tokenizer of the external `TfidfVectorizer`
(scikit-learn, not part of this repository's sources).  Lowercasing and the
two-character-minimum token rule follow the library's documented default;
splitting is on spaces. -/
def tokenize (s : String) : List String :=
  (splitWordsAux (s.data.map Char.toLower) []).filter (fun w => 2 ≤ w.length)

/-- Contiguous two-word sequences of a token list. -/
def bigrams : List String → List String
  | a :: b :: rest => (a ++ " " ++ b) :: bigrams (b :: rest)
  | _ => []

/-- Candidate terms of one document for `ngram_range=(1, 2)`: single words
and two-word contiguous sequences. -/
def docTerms (s : String) : List String :=
  tokenize s ++ bigrams (tokenize s)

/-- All candidate terms of a corpus, without duplicates. -/
def candidateTerms (corpus : List String) : List String :=
  ((corpus.map docTerms).flatten).dedup

/-- Number of documents of the corpus containing the term. -/
def docFreq (corpus : List String) (t : String) : Nat :=
  (corpus.filter (fun d => decide (t ∈ docTerms d))).length

/-- Modelled from the spec: vocabulary selection of the external
`TfidfVectorizer` — a candidate term is kept only if its document frequency
is at or above the lower bound (`min_df`, a document count) and strictly
below the upper bound (`max_df`, a fraction of the corpus size). -/
def vocabulary (minDocCount : Nat) (maxDocFrac : W) (corpus : List String) :
    List String :=
  (candidateTerms corpus).filter (fun t =>
    decide (minDocCount ≤ docFreq corpus t) &&
    decide (wLt (wOfNat (docFreq corpus t))
      (wMul maxDocFrac (wOfNat corpus.length))))

/-- Base-2 logarithm by fuel-bounded structural recursion (`fuel ≥ n`
makes it exact; structural recursion keeps it evaluable in proofs). -/
def natLog2Aux : Nat → Nat → Nat
  | 0, _ => 0
  | fuel + 1, n => if 2 ≤ n then natLog2Aux fuel (n / 2) + 1 else 0

/-- Base-2 logarithm of a natural number. -/
def natLog2 (n : Nat) : Nat := natLog2Aux n n

/-- Modelled from the spec: the logarithmically-scaled inverse document
fraction.  The spec fixes only "logarithmically-scaled"; the discrete
base-2 logarithm stands in for the library's natural one (no claim below
depends on the numeric value of a weight). -/
def idf (corpus : List String) (t : String) : W :=
  wOfNat (1 + natLog2 ((corpus.length + 1) / (docFreq corpus t + 1)))

/-- Raw frequency of a term within one document. -/
def tf (d t : String) : W :=
  wOfNat ((docTerms d).filter (fun u => u == t)).length

/-- The document-term weight matrix: one row per document, one column per
vocabulary term. -/
def tfidfMatrix (minDocCount : Nat) (maxDocFrac : W) (corpus : List String) :
    List (List W) :=
  corpus.map (fun d =>
    (vocabulary minDocCount maxDocFrac corpus).map
      (fun t => wMul (tf d t) (idf corpus t)))

/-- Modelled from the spec: `TfidfVectorizer.fit_transform` (external
library).  Learns the vocabulary, fails with `emptyVocabulary` when no term
passes the frequency thresholds, and otherwise returns one weight row per
document (entry = term frequency × scaled inverse document fraction). -/
def tfidfFit (minDocCount : Nat) (maxDocFrac : W) (corpus : List String) :
    Except PipelineError (List String × List (List W)) :=
  if (vocabulary minDocCount maxDocFrac corpus).isEmpty then
    .error .emptyVocabulary
  else .ok (vocabulary minDocCount maxDocFrac corpus,
    tfidfMatrix minDocCount maxDocFrac corpus)

/-- Squared Euclidean distance of two weight vectors. -/
def sqDist (x y : List W) : W :=
  wSum ((x.zip y).map (fun p => wMul (wSub p.1 p.2) (wSub p.1 p.2)))

/-- Index of the least element, lowest index on ties (the spec's
deterministic tie-break for cluster assignment). -/
def argminIdx : List W → Nat
  | [] => 0
  | [_] => 0
  | x :: y :: ys =>
    if wLe x ((y :: ys).getD (argminIdx (y :: ys)) default) then 0
    else argminIdx (y :: ys) + 1

/-- Index of the greatest element, lowest index on ties. -/
def argmaxIdx : List W → Nat
  | [] => 0
  | [_] => 0
  | x :: y :: ys =>
    if wLe ((y :: ys).getD (argmaxIdx (y :: ys)) default) x then 0
    else argmaxIdx (y :: ys) + 1

/-- Least squared distance from a point to any already-chosen centroid. -/
def minDistTo (chosen : List (List W)) (x : List W) : W :=
  match chosen with
  | [] => wOfNat 0
  | c :: cs => cs.foldl (fun m c2 => wMin m (sqDist x c2)) (sqDist x c)

/-- Modelled from the spec: one step of the seeded, distance-weighted
initialization of the external K-means (successive centroids favor points
far from the already-chosen ones).  The first centroid is the seed-selected
point; each later one is the point at greatest minimum distance from the
chosen set, lowest index on ties. -/
def nextCentroid (seed : Nat) (X : List (List W)) (acc : List (List W)) :
    List W :=
  if acc.isEmpty then X.getD (seed % X.length) []
  else X.getD (argmaxIdx (X.map (minDistTo acc))) []

/-- Seeded initialization producing exactly `K` centroids. -/
def initCentroids (K seed : Nat) (X : List (List W)) : List (List W) :=
  (List.range K).foldl (fun acc _ => acc ++ [nextCentroid seed X acc]) []

/-- Assignment step: each row goes to the nearest centroid (squared
Euclidean distance, lowest index on ties). -/
def assignLabels (cents X : List (List W)) : List Nat :=
  X.map (fun x => argminIdx (cents.map (sqDist x)))

/-- Componentwise sum of two equal-length vectors. -/
def vecAdd (x y : List W) : List W :=
  (x.zip y).map (fun p => wAdd p.1 p.2)

/-- Mean of a nonempty bag of vectors. -/
def meanVec : List (List W) → List W
  | [] => []
  | v :: vs =>
    (vs.foldl vecAdd v).map (fun q => wDivNat q (vs.length + 1) (by omega))

/-- Update step: each centroid becomes the mean of its assigned rows (a
centroid with no assigned rows is kept unchanged). -/
def lloydStep (X cents : List (List W)) : List (List W) :=
  (List.range cents.length).map (fun j =>
    let members :=
      ((X.zip (assignLabels cents X)).filter (fun p => p.2 == j)).map Prod.fst
    if members.isEmpty then cents.getD j [] else meanVec members)

/-- Modelled from the spec: the alternation of assignment and update steps,
stopping when the assignment no longer changes or the iteration bound is
exhausted. -/
def kmeansIter : Nat → List (List W) → List (List W) → List (List W)
  | 0, cents, _ => cents
  | n + 1, cents, X =>
    let cents2 := lloydStep X cents
    if assignLabels cents2 X == assignLabels cents X then cents2
    else kmeansIter n cents2 X

/-- Modelled from the spec: `KMeans(...).fit` of the external library.
Fails with `insufficientData` when fewer rows than requested clusters are
given; otherwise returns the final per-row cluster labels and centroids. -/
def kmeansFit (K seed maxIter : Nat) (X : List (List W)) :
    Except PipelineError (List Nat × List (List W)) :=
  if X.length < K then .error .insufficientData
  else
    let cents := kmeansIter maxIter (initCentroids K seed X) X
    .ok (assignLabels cents X, cents)

/-- Configuration constants of `thematic_analysis.py`: `NUM_CLUSTERS = 7`
(line 13) and the `TfidfVectorizer`/`KMeans` keyword values of lines 67–79. -/
def NUM_CLUSTERS : Nat := 7

def MAX_DF : W := ⟨85, 100, by omega⟩

def MIN_DF : Nat := 5

def MAX_ITER : Nat := 100

def RANDOM_STATE : Nat := 42

def N_TERMS : Nat := 6

/-- The (document index → cluster id) mapping induced by the clustering:
defined exactly on the indices of the negative rows, in their order. -/
def assignOf (negIdxs : List Nat) (labels : List Nat) (i : Nat) : Option Int :=
  if i ∈ negIdxs then (labels[negIdxs.indexOf i]?).map Int.ofNat else none

/-- The corpus handed to the vectorizer: the `review` texts of the negative
rows, in row order (`df_negative['review']` at line 72 of
`thematic_analysis.py`). -/
def negDocs (df : List SentimentRow) : List String :=
  (negativeIndices df).map (fun i => (df.getD i default).review)

/-- `perform_thematic_analysis` of `thematic_analysis.py` (lines 36–115):
filter to NEGATIVE rows; if none, write the original frame unchanged;
otherwise vectorize, cluster, and merge the labels back.  `.ok rows` models
the rows written to `thematic_analysis_results.csv`; `.error e` models the
catch-all `except` logging and writing nothing. -/
def perform_thematic_analysis (df : List SentimentRow) :
    Except PipelineError (List SentimentRow) :=
  if (negativeIndices df).isEmpty then .ok df
  else
    match tfidfFit MIN_DF MAX_DF (negDocs df) with
    | .error e => .error e
    | .ok (_, X) =>
      match kmeansFit NUM_CLUSTERS RANDOM_STATE MAX_ITER X with
      | .error e => .error e
      | .ok (labels, _) => .ok (mergeBack df (assignOf (negativeIndices df) labels))

/-- What `row.argsort()` at line 18 of `thematic_analysis.py` is specified
to return: some permutation of the row's index range along which the row's
values ascend.  numpy's default `kind='quicksort'` is documented unstable,
so for rows longer than its small-sort threshold the order of equal values
is NOT specified — every theorem about the program's argsort output must
therefore quantify over all orders satisfying this predicate. -/
def IsArgsortOf (row : List W) (ord : List Nat) : Prop :=
  List.Perm ord (List.range row.length) ∧
  List.Pairwise (fun i j => wLe (row.getD i default) (row.getD j default)) ord

/-- Non-strict lexicographic order on (vocabulary index, centroid weight)
pairs, comparing the weight first; the key of the stable ascending sort
below. -/
def keyLe (p q : Nat × W) : Prop :=
  wLt p.2 q.2 ∨ (wEquiv p.2 q.2 ∧ p.1 ≤ q.1)

instance : DecidableRel keyLe := fun p q => by
  unfold keyLe; infer_instance

/-- One concrete resolution of `row.argsort()`: the stable ascending sort
(equal values in ascending index order).  numpy's quicksort argsort falls
back to insertion sort on partitions below its small-sort threshold (16
elements), so on rows shorter than that threshold — such as every row of
the counterexample below — the library's output is exactly this list; for
longer rows only `IsArgsortOf` is guaranteed. -/
def argsortAsc (row : List W) : List Nat :=
  (List.insertionSort keyLe row.enum).map Prod.fst

/-- `order[:n]` applied to a reversed argsort result: the reversal
(`[:, ::-1]` at line 18 of `thematic_analysis.py`) followed by the `:n_terms`
truncation at line 26, as a function of whatever index order the library's
argsort returned. -/
def topTermIndicesOf (ord : List Nat) (n : Nat) : List Nat :=
  (ord.reverse).take n

/-- Model of `order_centroids[i, :n_terms]` (lines 18 and 26 of
`thematic_analysis.py`) under the stable short-row resolution of argsort. -/
def topTermIndices (row : List W) (n : Nat) : List Nat :=
  topTermIndicesOf (argsortAsc row) n

/-- `get_top_terms_per_cluster` of `thematic_analysis.py` (lines 16–34):
for each of the `NUM_CLUSTERS` clusters, the top-`n` vocabulary terms of its
centroid row, rendered as `("Theme i+1", comma-joined terms)`.  The
per-cluster index order is the stable resolution `argsortAsc` — exact for
rows below the library sort's small-sort threshold, one admissible
`IsArgsortOf` order otherwise. -/
def get_top_terms_per_cluster (terms : List String) (centers : List (List W))
    (n : Nat) : List (String × String) :=
  (List.range NUM_CLUSTERS).map (fun i =>
    ("Theme " ++ toString (i + 1),
      String.intercalate ", "
        ((topTermIndices (centers.getD i []) n).map (fun ind => terms.getD ind ""))))

/-- The clustering run as a function of every input the determinism claim
quantifies over: corpus, cluster count, seed, and document-frequency
thresholds.  Returns the per-document cluster assignment and the derived
theme labels. -/
def clusterRun (corpus : List String) (K seed minDocCount : Nat)
    (maxDocFrac : W) :
    Except PipelineError (List Nat × List (String × String)) :=
  match tfidfFit minDocCount maxDocFrac corpus with
  | .error e => .error e
  | .ok (vocab, X) =>
    match kmeansFit K seed MAX_ITER X with
    | .error e => .error e
    | .ok (labels, cents) =>
      .ok (labels, get_top_terms_per_cluster vocab cents N_TERMS)

/-- A negative review row (concrete test data). -/
def mkNeg (s : String) : SentimentRow :=
  { bank := "CBE", review := s, sentiment_label := "NEGATIVE" }

/-- A positive review row (concrete test data). -/
def mkPos (s : String) : SentimentRow :=
  { bank := "CBE", review := s, sentiment_label := "POSITIVE" }

/-- A dataset with no negative review. -/
def dfEmptyNeg : List SentimentRow := [mkPos "great app love it"]

/-- A dataset whose single negative review is too small for any term to
reach `min_df = 5`. -/
def dfTinyCorpus : List SentimentRow := [mkNeg "bad app"]

/-- Six negative reviews (fewer than `NUM_CLUSTERS = 7`) in which the term
"crash" appears in five documents, so the vocabulary is nonempty. -/
def dfSixNeg : List SentimentRow :=
  [mkNeg "crash one", mkNeg "crash two", mkNeg "crash three",
   mkNeg "crash four", mkNeg "crash five", mkNeg "other thing"]

/-- Seven negative reviews, five containing "crash": enough documents for
`NUM_CLUSTERS = 7` and a nonempty vocabulary. -/
def dfSevenNeg : List SentimentRow :=
  [mkNeg "crash aa", mkNeg "crash bb", mkNeg "crash cc",
   mkNeg "crash dd", mkNeg "crash ee", mkNeg "ff gg", mkNeg "hh ii"]

/-- The output the pipeline produces on `dfSevenNeg`. -/
def outSevenNeg : List SentimentRow :=
  [{ mkNeg "crash aa" with theme_id := some 0 },
   { mkNeg "crash bb" with theme_id := some 0 },
   { mkNeg "crash cc" with theme_id := some 0 },
   { mkNeg "crash dd" with theme_id := some 0 },
   { mkNeg "crash ee" with theme_id := some 0 },
   { mkNeg "ff gg" with theme_id := some 1 },
   { mkNeg "hh ii" with theme_id := some 1 }]

/-- A two-row dataset (one negative, one positive) for the merge-back
witness. -/
def dfMerge : List SentimentRow := [mkNeg "bad app", mkPos "nice"]

/-- An assignment whose domain is exactly the negative row of `dfMerge`. -/
def aMerge : Nat → Option Int := fun i => if i = 0 then some 2 else none

/-- A one-review clean frame before sentiment analysis. -/
def frameOneReview : SentFrame :=
  { reviews := ["bad app"], hasReviewCol := true,
    sentiment_label := none, sentiment_score := none }

/-- A pipeline result batch whose single record carries a label but no
score. -/
def scorelessResults : List HFResult :=
  [{ label := some "NEGATIVE", score := none }]

/-- A CSV row with both `rating` and `theme_id` missing. -/
def csvMissing : CsvRow :=
  { bank := "CBE", rating := none, date := "2024-01-01",
    source := "google_play", review_text := "bad app",
    sentiment_label := "NEGATIVE", sentiment_score := 9 / 10,
    theme_id := none }

/-!  Theorems.  First the supporting lemmas about the embedded operations,
then one theorem (plus witness or counterexample) per claimed property. -/

theorem negativeIndices_mem {df : List SentimentRow} {i : Nat} :
    i ∈ negativeIndices df ↔
      i < df.length ∧ (df.getD i default).sentiment_label = "NEGATIVE" := by
  simp [negativeIndices, List.mem_filter]

theorem mergeBack_getD {df : List SentimentRow} {a : Nat → Option Int} {i : Nat}
    (hi : i < df.length) :
    (mergeBack df a).getD i default =
      { df.getD i default with theme_id := some ((a i).getD (-1)) } := by
  have h1 : (mergeBack df a)[i]? =
      some { df.getD i default with theme_id := some ((a i).getD (-1)) } := by
    simp [mergeBack, List.getElem?_map, List.getElem?_range, hi]
  simp [List.getD_eq_getElem?_getD, h1]

theorem mergeBack_length (df : List SentimentRow) (a : Nat → Option Int) :
    (mergeBack df a).length = df.length := by
  simp [mergeBack]

theorem mergeBack_map_dropTheme (df : List SentimentRow) (a : Nat → Option Int) :
    (mergeBack df a).map dropTheme = df.map dropTheme := by
  apply List.ext_getElem
  · simp [mergeBack]
  · intro i h1 h2
    simp only [List.length_map, mergeBack_length] at h1
    simp [mergeBack, dropTheme, List.getD_eq_getElem?_getD,
      List.getElem?_eq_getElem h1]

/-- C1: given the full review dataset and a (document index → cluster id)
mapping whose domain is exactly the negative reviews, the merge-back output
has the same row count and row order as the input (every row unchanged
except its theme id), every negative review's theme id equals its assigned
cluster id, and every non-negative review's theme id equals the sentinel
−1. -/
theorem merge_back_correct (df : List SentimentRow) (a : Nat → Option Int)
    (hdom : ∀ i, (a i).isSome ↔ i ∈ negativeIndices df) :
    (mergeBack df a).length = df.length ∧
    (mergeBack df a).map dropTheme = df.map dropTheme ∧
    (∀ i, i ∈ negativeIndices df →
      ((mergeBack df a).getD i default).theme_id = a i) ∧
    (∀ i, i < df.length → i ∉ negativeIndices df →
      ((mergeBack df a).getD i default).theme_id = some (-1)) := by
  refine ⟨mergeBack_length df a, mergeBack_map_dropTheme df a, ?_, ?_⟩
  · intro i hi
    have hlen : i < df.length := (negativeIndices_mem.mp hi).1
    have hsome : (a i).isSome := (hdom i).mpr hi
    obtain ⟨c, hc⟩ := Option.isSome_iff_exists.mp hsome
    rw [mergeBack_getD hlen]
    simp [hc]
  · intro i hlen hni
    have hnone : a i = none := by
      cases h : a i with
      | none => rfl
      | some c => exact absurd ((hdom i).mp (by simp [h])) hni
    rw [mergeBack_getD hlen]
    simp [hnone]

theorem merge_back_correct_witness :
    (mergeBack dfMerge aMerge).length = dfMerge.length ∧
    (mergeBack dfMerge aMerge).map dropTheme = dfMerge.map dropTheme ∧
    (∀ i, i ∈ negativeIndices dfMerge →
      ((mergeBack dfMerge aMerge).getD i default).theme_id = aMerge i) ∧
    (∀ i, i < dfMerge.length → i ∉ negativeIndices dfMerge →
      ((mergeBack dfMerge aMerge).getD i default).theme_id = some (-1)) :=
  merge_back_correct dfMerge aMerge (by
    intro i
    have h : negativeIndices dfMerge = [0] := by decide
    rw [h]
    by_cases hi : i = 0 <;> simp [aMerge, hi])

/-- C4 counterexample: on a dataset whose only review is POSITIVE the
pipeline writes the original rows back unchanged, so the written row's
theme id is absent (`none`), not the sentinel −1 the claim requires for
every row. -/
theorem empty_negative_counterexample :
    perform_thematic_analysis dfEmptyNeg = .ok dfEmptyNeg ∧
    ¬ (∀ r ∈ dfEmptyNeg, r.theme_id = some (-1)) := by
  constructor
  · rfl
  · decide

/-- C4 amended: when the set of negative reviews is empty the pipeline
skips clustering entirely — no error is raised and the original dataset is
written unchanged, so the theme id column is absent rather than filled with
−1. -/
theorem empty_negative_skips (df : List SentimentRow)
    (h : negativeIndices df = []) :
    perform_thematic_analysis df = .ok df := by
  simp [perform_thematic_analysis, h]

theorem empty_negative_skips_witness :
    perform_thematic_analysis dfEmptyNeg = .ok dfEmptyNeg :=
  empty_negative_skips dfEmptyNeg (by decide)

/-- C9: before insertion into the relational store, a row with missing
rating is assigned rating 0 and a row with missing theme id is assigned
theme id −1; the persisted tuple (`DbRow`, mirroring the table schema) has
no data-quality flag recording the coercion. -/
theorem loader_coerces_missing (rows : List CsvRow) (i : Nat) (r : CsvRow)
    (hr : rows[i]? = some r) :
    (load_data_to_postgres rows)[i]? = some (coerceRow r) ∧
    (r.rating = none → (coerceRow r).rating = 0) ∧
    (r.theme_id = none → (coerceRow r).theme_id = -1) := by
  refine ⟨?_, ?_, ?_⟩
  · simp [load_data_to_postgres, List.getElem?_map, hr]
  · intro h; simp [coerceRow, h]
  · intro h; simp [coerceRow, h]

theorem loader_coerces_missing_witness :
    (load_data_to_postgres [csvMissing])[0]? = some (coerceRow csvMissing) ∧
    (csvMissing.rating = none → (coerceRow csvMissing).rating = 0) ∧
    (csvMissing.theme_id = none → (coerceRow csvMissing).theme_id = -1) :=
  loader_coerces_missing [csvMissing] 0 csvMissing (by rfl)

/-- C10 counterexample: when batch inference succeeds but result
integration fails while extracting scores (a record carries `label` but no
`score`), `analyze_sentiment` does NOT return the input frame unchanged —
the label column was already attached in place — and the caller's guard
(`'sentiment_label' in columns and not empty`) passes, so the
partially-labeled frame (labels without scores) is persisted. -/
theorem sentiment_partial_persist_counterexample :
    analyze_sentiment true (.ok scorelessResults) frameOneReview ≠
      frameOneReview ∧
    (analyze_sentiment true (.ok scorelessResults) frameOneReview).sentiment_label =
      some ["NEGATIVE"] ∧
    (analyze_sentiment true (.ok scorelessResults) frameOneReview).sentiment_score =
      none ∧
    saveSentimentResults (analyze_sentiment true (.ok scorelessResults) frameOneReview) =
      some (analyze_sentiment true (.ok scorelessResults) frameOneReview) := by
  refine ⟨by decide, by rfl, by rfl, by rfl⟩

/-- C10 amended: if model loading fails, batch inference fails, or result
integration fails before the label column is attached (a record lacks the
label key, or the label list's length mismatches the frame),
`analyze_sentiment` returns the input frame unchanged and the caller
refuses to write; but an integration failure while extracting scores leaves
an attached label column behind, so atomicity holds only for the failures
listed here. -/
theorem sentiment_abort_unchanged (df : SentFrame) (loadOk : Bool)
    (infer : Except Unit (List HFResult))
    (hno : df.sentiment_label = none)
    (hfail : loadOk = false ∨ (∃ e, infer = Except.error e) ∨
      (∃ rs, infer = Except.ok rs ∧
        (extractLabels rs = none ∨
          ∀ ls, extractLabels rs = some ls → ls.length ≠ df.reviews.length))) :
    analyze_sentiment loadOk infer df = df ∧
    saveSentimentResults (analyze_sentiment loadOk infer df) = none := by
  have hres : analyze_sentiment loadOk infer df = df := by
    rcases hfail with hl | ⟨e, he⟩ | ⟨rs, hrs, hint⟩
    · subst hl; simp [analyze_sentiment]
    · subst he; simp [analyze_sentiment]
    · subst hrs
      have hintg : integrateResults df rs = df := by
        rcases hint with hnone | hlen
        · simp [integrateResults, hnone]
        · cases hls : extractLabels rs with
          | none => simp [integrateResults, hls]
          | some ls => simp [integrateResults, hls, hlen ls hls]
      simp [analyze_sentiment, hintg]
  rw [hres]
  exact ⟨rfl, by simp [saveSentimentResults, hno]⟩

theorem sentiment_abort_unchanged_witness :
    analyze_sentiment false (.ok scorelessResults) frameOneReview =
      frameOneReview ∧
    saveSentimentResults
      (analyze_sentiment false (.ok scorelessResults) frameOneReview) = none :=
  sentiment_abort_unchanged frameOneReview false (.ok scorelessResults)
    (by rfl) (Or.inl rfl)

/-- C3: for two runs with the same input corpus, the same cluster count,
the same seed, and the same document-frequency thresholds, the resulting
cluster assignment and derived theme labels are identical — the embedded
run (`clusterRun`) contains no source of nondeterminism beyond its explicit
arguments. -/
theorem cluster_run_deterministic (c1 c2 : List String)
    (K1 K2 s1 s2 m1 m2 : Nat) (M1 M2 : W)
    (hc : c1 = c2) (hK : K1 = K2) (hs : s1 = s2) (hm : m1 = m2)
    (hM : M1 = M2) :
    clusterRun c1 K1 s1 m1 M1 = clusterRun c2 K2 s2 m2 M2 := by
  subst hc; subst hK; subst hs; subst hm; subst hM; rfl

theorem cluster_run_deterministic_witness :
    clusterRun ["crash aa", "crash bb"] 1 42 1 MAX_DF =
      clusterRun ["crash aa", "crash bb"] 1 42 1 MAX_DF :=
  cluster_run_deterministic _ _ _ _ _ _ _ _ _ _ rfl rfl rfl rfl rfl

/-- C5: when no candidate term passes the document-frequency thresholds on
the negative corpus, vectorization fails with `emptyVocabulary` and the
pipeline aborts the clustering step, returning the error instead of
crashing or writing an output. -/
theorem empty_vocabulary_aborts (df : List SentimentRow)
    (hne : ¬ (negativeIndices df).isEmpty)
    (hvoc : vocabulary MIN_DF MAX_DF (negDocs df) = []) :
    perform_thematic_analysis df = .error .emptyVocabulary := by
  simp [perform_thematic_analysis, hne, tfidfFit, hvoc]

theorem empty_vocabulary_aborts_witness :
    perform_thematic_analysis dfTinyCorpus = .error .emptyVocabulary :=
  empty_vocabulary_aborts dfTinyCorpus (by decide) (by decide)

/-- C6: when the configured cluster count exceeds the number of negative
documents (and the vocabulary is nonempty, so vectorization succeeds), the
clustering stage fails with `insufficientData` and the pipeline aborts. -/
theorem too_few_documents_aborts (df : List SentimentRow)
    (hne : ¬ (negativeIndices df).isEmpty)
    (hvoc : ¬ (vocabulary MIN_DF MAX_DF (negDocs df)).isEmpty)
    (hN : (negativeIndices df).length < NUM_CLUSTERS) :
    perform_thematic_analysis df = .error .insufficientData := by
  have hX : (tfidfMatrix MIN_DF MAX_DF (negDocs df)).length < NUM_CLUSTERS := by
    simpa [tfidfMatrix, negDocs] using hN
  simp [perform_thematic_analysis, tfidfFit, hne, hvoc, kmeansFit, hX]

theorem too_few_documents_aborts_witness :
    perform_thematic_analysis dfSixNeg = .error .insufficientData :=
  too_few_documents_aborts dfSixNeg (by decide) (by decide) (by decide)

/-- C7: a candidate term is included in the vocabulary iff its document
frequency is at or above the configured lower bound and strictly below the
configured upper bound (a fraction of the corpus size). -/
theorem vocabulary_selection_iff (minDocCount : Nat) (maxDocFrac : W)
    (corpus : List String) (t : String) (ht : t ∈ candidateTerms corpus) :
    t ∈ vocabulary minDocCount maxDocFrac corpus ↔
      (minDocCount ≤ docFreq corpus t ∧
        wLt (wOfNat (docFreq corpus t))
          (wMul maxDocFrac (wOfNat corpus.length))) := by
  simp [vocabulary, List.mem_filter, ht]

theorem vocabulary_selection_iff_witness :
    ("crash" ∈ candidateTerms (negDocs dfSixNeg)) ∧
    ("crash" ∈ vocabulary MIN_DF MAX_DF (negDocs dfSixNeg) ↔
      (MIN_DF ≤ docFreq (negDocs dfSixNeg) "crash" ∧
        wLt (wOfNat (docFreq (negDocs dfSixNeg) "crash"))
          (wMul MAX_DF (wOfNat (negDocs dfSixNeg).length)))) :=
  ⟨by decide, vocabulary_selection_iff MIN_DF MAX_DF _ "crash" (by decide)⟩

theorem argminIdx_lt_length (l : List W) (h : l ≠ []) :
    argminIdx l < l.length := by
  induction l with
  | nil => exact absurd rfl h
  | cons x xs ih =>
    cases xs with
    | nil => simp [argminIdx]
    | cons y ys =>
      simp only [argminIdx]
      split
      · simp
      · have := ih (by simp)
        simpa using Nat.succ_lt_succ this

theorem foldl_snoc_length (g : List (List W) → List W) (l : List Nat) :
    ∀ acc : List (List W),
      (l.foldl (fun a _ => a ++ [g a]) acc).length = acc.length + l.length := by
  induction l with
  | nil => intro acc; simp
  | cons x xs ih =>
    intro acc
    rw [List.foldl_cons, ih]
    simp
    omega

theorem initCentroids_length (K seed : Nat) (X : List (List W)) :
    (initCentroids K seed X).length = K := by
  simp [initCentroids, foldl_snoc_length (nextCentroid seed X)]

theorem lloydStep_length (X cents : List (List W)) :
    (lloydStep X cents).length = cents.length := by
  simp [lloydStep]

theorem kmeansIter_length (n : Nat) :
    ∀ cents X : List (List W), (kmeansIter n cents X).length = cents.length := by
  induction n with
  | zero => intro cents X; rfl
  | succ n ih =>
    intro cents X
    simp only [kmeansIter]
    split
    · exact lloydStep_length X cents
    · rw [ih]
      exact lloydStep_length X cents

theorem assignLabels_length (cents X : List (List W)) :
    (assignLabels cents X).length = X.length := by
  simp [assignLabels]

theorem assignLabels_mem_lt (cents X : List (List W)) (hc : cents ≠ [])
    (l : Nat) (hl : l ∈ assignLabels cents X) : l < cents.length := by
  simp only [assignLabels, List.mem_map] at hl
  obtain ⟨x, _, rfl⟩ := hl
  have h := argminIdx_lt_length (cents.map (sqDist x)) (by simpa using hc)
  simpa using h

theorem kmeansFit_ok {K seed maxIter : Nat} {X : List (List W)}
    {labels : List Nat} {cents : List (List W)}
    (h : kmeansFit K seed maxIter X = .ok (labels, cents)) :
    labels.length = X.length ∧ cents.length = K ∧
      (0 < K → ∀ l ∈ labels, l < K) := by
  rw [kmeansFit] at h
  split at h
  · exact absurd h (by simp)
  · simp only [Except.ok.injEq, Prod.mk.injEq] at h
    obtain ⟨h1, h2⟩ := h
    subst h2
    subst h1
    have hclen : (kmeansIter maxIter (initCentroids K seed X) X).length = K := by
      rw [kmeansIter_length, initCentroids_length]
    refine ⟨assignLabels_length _ _, hclen, ?_⟩
    intro hK l hl
    have hcne : kmeansIter maxIter (initCentroids K seed X) X ≠ [] := by
      intro e
      rw [e] at hclen
      simp at hclen
      omega
    have := assignLabels_mem_lt _ X hcne l hl
    omega

theorem tfidfMatrix_length (m : Nat) (M : W) (c : List String) :
    (tfidfMatrix m M c).length = c.length := by
  simp [tfidfMatrix]

theorem tfidfFit_ok {m : Nat} {M : W} {c v : List String}
    {X : List (List W)} (h : tfidfFit m M c = .ok (v, X)) :
    X = tfidfMatrix m M c := by
  rw [tfidfFit] at h
  split at h
  · exact absurd h (by simp)
  · simp only [Except.ok.injEq, Prod.mk.injEq] at h
    exact h.2.symm

/-- C2: whenever the pipeline succeeds on a dataset with at least one
negative review, every negative record receives (exactly once, through the
assignment mapping) a theme id in `[0, NUM_CLUSTERS − 1]`, and every other
record ends with theme id −1. -/
theorem thematic_invariant (df out : List SentimentRow)
    (hok : perform_thematic_analysis df = .ok out)
    (hne : negativeIndices df ≠ []) :
    (∀ i ∈ negativeIndices df, ∃ c : Int, 0 ≤ c ∧ c < (NUM_CLUSTERS : Int) ∧
      (out.getD i default).theme_id = some c) ∧
    (∀ i, i < df.length → i ∉ negativeIndices df →
      (out.getD i default).theme_id = some (-1)) := by
  rw [perform_thematic_analysis] at hok
  have hemp : (negativeIndices df).isEmpty = false := by
    cases h : (negativeIndices df).isEmpty
    · rfl
    · exact absurd (by simpa using h) hne
  rw [hemp] at hok
  simp only [Bool.false_eq_true, if_false] at hok
  cases hfit : tfidfFit MIN_DF MAX_DF (negDocs df) with
  | error e => rw [hfit] at hok; exact absurd hok (by simp)
  | ok p =>
    obtain ⟨v, X⟩ := p
    rw [hfit] at hok
    dsimp only at hok
    cases hkm : kmeansFit NUM_CLUSTERS RANDOM_STATE MAX_ITER X with
    | error e => rw [hkm] at hok; exact absurd hok (by simp)
    | ok q =>
      obtain ⟨labels, cents⟩ := q
      rw [hkm] at hok
      simp only [Except.ok.injEq] at hok
      subst hok
      have hX : X = tfidfMatrix MIN_DF MAX_DF (negDocs df) := tfidfFit_ok hfit
      have hkm2 := kmeansFit_ok hkm
      have hlablen : labels.length = (negativeIndices df).length := by
        rw [hkm2.1, hX, tfidfMatrix_length]
        simp [negDocs]
      constructor
      · intro i hi
        have hilt : i < df.length := (negativeIndices_mem.mp hi).1
        have hidx : (negativeIndices df).indexOf i < labels.length := by
          rw [hlablen]
          exact List.indexOf_lt_length.mpr hi
        cases hl : labels[(negativeIndices df).indexOf i]? with
        | none =>
          have := List.getElem?_eq_none_iff.mp hl
          omega
        | some l =>
          have hlmem : l ∈ labels := List.getElem?_mem hl
          have hlK : l < NUM_CLUSTERS := hkm2.2.2 (by decide) l hlmem
          refine ⟨(l : Int), by exact_mod_cast Nat.zero_le l,
            by exact_mod_cast hlK, ?_⟩
          rw [mergeBack_getD hilt]
          simp [assignOf, hi, hl]
      · intro i hilt hni
        rw [mergeBack_getD hilt]
        simp [assignOf, hni]

theorem thematic_invariant_witness :
    (∀ i ∈ negativeIndices dfSevenNeg, ∃ c : Int, 0 ≤ c ∧
      c < (NUM_CLUSTERS : Int) ∧
      (outSevenNeg.getD i default).theme_id = some c) ∧
    (∀ i, i < dfSevenNeg.length → i ∉ negativeIndices dfSevenNeg →
      (outSevenNeg.getD i default).theme_id = some (-1)) :=
  thematic_invariant dfSevenNeg outSevenNeg (by rfl) (by decide)

theorem wEquiv_symm {a b : W} (h : wEquiv a b) : wEquiv b a := by
  unfold wEquiv at *
  omega

theorem wLt_trans {a b c : W} (h1 : wLt a b) (h2 : wLt b c) : wLt a c := by
  unfold wLt at h1 h2 ⊢
  have hb := b.den_pos
  have h1c := mul_lt_mul_of_pos_right h1 c.den_pos
  have h2a := mul_lt_mul_of_pos_right h2 a.den_pos
  have hmid : a.num * c.den * b.den < c.num * a.den * b.den := by
    calc a.num * c.den * b.den = a.num * b.den * c.den := by ring
      _ < b.num * a.den * c.den := h1c
      _ = b.num * c.den * a.den := by ring
      _ < c.num * b.den * a.den := h2a
      _ = c.num * a.den * b.den := by ring
  exact lt_of_mul_lt_mul_right hmid (le_of_lt hb)

theorem wLt_of_wLt_of_wEquiv {a b c : W} (h1 : wLt a b) (h2 : wEquiv b c) :
    wLt a c := by
  unfold wLt wEquiv at *
  have hb := b.den_pos
  have hmid : a.num * c.den * b.den < c.num * a.den * b.den := by
    calc a.num * c.den * b.den = a.num * b.den * c.den := by ring
      _ < b.num * a.den * c.den := mul_lt_mul_of_pos_right h1 c.den_pos
      _ = b.num * c.den * a.den := by ring
      _ = c.num * b.den * a.den := by rw [h2]
      _ = c.num * a.den * b.den := by ring
  exact lt_of_mul_lt_mul_right hmid (le_of_lt hb)

theorem wLt_of_wEquiv_of_wLt {a b c : W} (h1 : wEquiv a b) (h2 : wLt b c) :
    wLt a c := by
  unfold wLt wEquiv at *
  have hb := b.den_pos
  have hmid : a.num * c.den * b.den < c.num * a.den * b.den := by
    calc a.num * c.den * b.den = a.num * b.den * c.den := by ring
      _ = b.num * a.den * c.den := by rw [h1]
      _ = b.num * c.den * a.den := by ring
      _ < c.num * b.den * a.den := mul_lt_mul_of_pos_right h2 a.den_pos
      _ = c.num * a.den * b.den := by ring
  exact lt_of_mul_lt_mul_right hmid (le_of_lt hb)

theorem wEquiv_trans {a b c : W} (h1 : wEquiv a b) (h2 : wEquiv b c) :
    wEquiv a c := by
  unfold wEquiv at *
  have hb : b.den ≠ 0 := ne_of_gt b.den_pos
  have hmid : a.num * c.den * b.den = c.num * a.den * b.den := by
    calc a.num * c.den * b.den = a.num * b.den * c.den := by ring
      _ = b.num * a.den * c.den := by rw [h1]
      _ = b.num * c.den * a.den := by ring
      _ = c.num * b.den * a.den := by rw [h2]
      _ = c.num * a.den * b.den := by ring
  exact mul_right_cancel₀ hb hmid

theorem keyLe_isTotal : IsTotal (Nat × W) keyLe := by
  constructor
  intro p q
  rcases lt_trichotomy (p.2.num * q.2.den) (q.2.num * p.2.den) with h | h | h
  · exact Or.inl (Or.inl h)
  · rcases Nat.le_total p.1 q.1 with hle | hle
    · exact Or.inl (Or.inr ⟨h, hle⟩)
    · exact Or.inr (Or.inr ⟨wEquiv_symm h, hle⟩)
  · exact Or.inr (Or.inl h)

theorem keyLe_isTrans : IsTrans (Nat × W) keyLe := by
  constructor
  rintro p q r (h1 | ⟨e1, le1⟩) (h2 | ⟨e2, le2⟩)
  · exact Or.inl (wLt_trans h1 h2)
  · exact Or.inl (wLt_of_wLt_of_wEquiv h1 e2)
  · exact Or.inl (wLt_of_wEquiv_of_wLt e1 h2)
  · exact Or.inr ⟨wEquiv_trans e1 e2, Nat.le_trans le1 le2⟩

theorem enum_snd_getD (row : List W) (p : Nat × W) (hp : p ∈ row.enum) :
    p.2 = row.getD p.1 default := by
  have h := List.mem_enum_iff_getElem?.mp hp
  simp [List.getD_eq_getElem?_getD, h]

theorem argsortAsc_pairwise (row : List W) :
    List.Pairwise (fun i j => wLt (row.getD i default) (row.getD j default) ∨
      (wEquiv (row.getD i default) (row.getD j default) ∧ i < j))
      (argsortAsc row) := by
  have hsort : List.Pairwise keyLe (List.insertionSort keyLe row.enum) :=
    @List.sorted_insertionSort _ keyLe _ keyLe_isTotal keyLe_isTrans row.enum
  have hmemeq : ∀ p ∈ List.insertionSort keyLe row.enum,
      p.2 = row.getD p.1 default := by
    intro p hp
    exact enum_snd_getD row p (by simpa using hp)
  have h1 : List.Pairwise (fun p q : Nat × W =>
      wLt (row.getD p.1 default) (row.getD q.1 default) ∨
      (wEquiv (row.getD p.1 default) (row.getD q.1 default) ∧ p.1 ≤ q.1))
      (List.insertionSort keyLe row.enum) := by
    refine List.Pairwise.imp_of_mem ?_ hsort
    intro p q hp hq hk
    rw [← hmemeq p hp, ← hmemeq q hq]
    exact hk
  have hnd : List.Pairwise (fun p q : Nat × W => p.1 ≠ q.1)
      (List.insertionSort keyLe row.enum) := by
    have hperm : List.Perm ((List.insertionSort keyLe row.enum).map Prod.fst)
        (row.enum.map Prod.fst) :=
      (List.perm_insertionSort keyLe row.enum).map Prod.fst
    have hn : ((List.insertionSort keyLe row.enum).map Prod.fst).Nodup := by
      rw [hperm.nodup_iff, List.enum_map_fst]
      exact List.nodup_range _
    exact List.pairwise_map.mp hn
  have h2 : List.Pairwise (fun p q : Nat × W =>
      wLt (row.getD p.1 default) (row.getD q.1 default) ∨
      (wEquiv (row.getD p.1 default) (row.getD q.1 default) ∧ p.1 < q.1))
      (List.insertionSort keyLe row.enum) := by
    refine (h1.and hnd).imp ?_
    rintro p q ⟨h | ⟨he, hle⟩, hne⟩
    · exact Or.inl h
    · exact Or.inr ⟨he, lt_of_le_of_ne hle hne⟩
  simp only [argsortAsc]
  exact List.pairwise_map.mpr h2

theorem wLe_of_wLt {a b : W} (h : wLt a b) : wLe a b := by
  unfold wLe
  unfold wLt at h
  omega

theorem wLe_of_wEquiv {a b : W} (h : wEquiv a b) : wLe a b := by
  unfold wLe
  unfold wEquiv at h
  omega

theorem argsortAsc_isArgsortOf (row : List W) :
    IsArgsortOf row (argsortAsc row) := by
  constructor
  · have hperm : List.Perm ((List.insertionSort keyLe row.enum).map Prod.fst)
        (row.enum.map Prod.fst) :=
      (List.perm_insertionSort keyLe row.enum).map Prod.fst
    rw [List.enum_map_fst] at hperm
    exact hperm
  · refine (argsortAsc_pairwise row).imp ?_
    rintro i j (h | ⟨he, _⟩)
    · exact wLe_of_wLt h
    · exact wLe_of_wEquiv he

/-- C8 amended: for each cluster, whatever index order the library's
ascending argsort returns (its default sort is unstable, so the order of
equal-weight entries is unspecified), the produced top-N index list is
ordered by centroid weight descending (non-strictly); the originally
claimed lowest-vocabulary-index tie-break is not guaranteed and concretely
fails on short rows, where argsort is a stable ascending insertion sort and
the reversal puts the higher index first. -/
theorem top_terms_sorted_desc (row : List W) (ord : List Nat) (n : Nat)
    (hord : IsArgsortOf row ord) :
    List.Pairwise (fun i j => wLe (row.getD j default) (row.getD i default))
      (topTermIndicesOf ord n) := by
  have hrev : List.Pairwise
      (fun i j => wLe (row.getD j default) (row.getD i default))
      ord.reverse := by
    rw [List.pairwise_reverse]
    exact hord.2
  exact hrev.sublist (List.take_sublist n _)

theorem top_terms_sorted_desc_witness :
    IsArgsortOf [wOfNat 1, wOfNat 1] [0, 1] ∧
    List.Pairwise (fun i j => wLe ([wOfNat 1, wOfNat 1].getD j default)
      ([wOfNat 1, wOfNat 1].getD i default))
      (topTermIndicesOf [0, 1] 2) :=
  ⟨⟨by decide, by decide⟩,
    top_terms_sorted_desc [wOfNat 1, wOfNat 1] [0, 1] 2 ⟨by decide, by decide⟩⟩

/-- C8 counterexample: a two-term vocabulary row is far below the library
sort's small-sort threshold, so the program's argsort is concretely the
stable ascending insertion sort and the produced top-2 list is
`[index 1, index 0]` — rendered "bb, aa" — refuting the claimed tie-break
(lower vocabulary index first). -/
theorem top_terms_tie_counterexample :
    (get_top_terms_per_cluster ["aa", "bb"] [[wOfNat 1, wOfNat 1]] 2).getD 0
        ("", "") = ("Theme 1", "bb, aa") ∧
    topTermIndices [wOfNat 1, wOfNat 1] 2 = [1, 0] ∧
    ¬ List.Pairwise (fun i j =>
        wLt ([wOfNat 1, wOfNat 1].getD j default)
          ([wOfNat 1, wOfNat 1].getD i default) ∨
        (wEquiv ([wOfNat 1, wOfNat 1].getD i default)
          ([wOfNat 1, wOfNat 1].getD j default) ∧ i < j))
      (topTermIndices [wOfNat 1, wOfNat 1] 2) := by
  refine ⟨by rfl, by rfl, ?_⟩
  rw [show topTermIndices [wOfNat 1, wOfNat 1] 2 = [1, 0] from rfl]
  intro h
  have h10 := (List.pairwise_cons.mp h).1 0 (by simp)
  revert h10
  decide

end FintechCX
